import Mathlib

/-!
# The repository download dialog (`src/ui/download-repo-dialog.cpp`)

A shallow embedding of `DownloadRepoDialog` and of the file-local helper
`isNonEmptyDirectory`, together with the properties of the dialog's
coordination contract.

Conventions of the embedding

* A `QString` is the list of its characters.
* Every slot of the dialog is a pure function from the dialog's fields (and
  the answers of the environment) to the new fields and the list of external
  effects it performed, in program order.
* Calls into the environment whose outcome the dialog cannot influence (the
  user's answer to a prompt, the outcome of `mkpath`, of the writability check
  and of the sync engine's `cloneRepo`) are answered by an `Env` record.
* The part of the file system read by `isNonEmptyDirectory` is a tree of
  nodes; symbolic links are not represented (a link to an existing file or
  directory behaves as its target for the queries used here, a dangling one is
  an entry of kind `other`).
* `tr` is the untranslated source text.
-/

namespace DownloadRepo

/-! ## Strings -/

/-- A `QString`, as the list of its characters. -/
abbrev QString := List Char

/-- Separator and control code points for which `QChar::isSpace_helper` answers
true: the Unicode categories Zs, Zl and Zp above U+00A0. -/
def QChar.isSpace_helper (u : Nat) : Bool :=
  u == 0x1680 || (0x2000 ≤ u && u ≤ 0x200a) || u == 0x2028 || u == 0x2029 ||
  u == 0x202f || u == 0x205f || u == 0x3000

/-- The function `QChar::isSpace`. -/
def QChar.isSpace (c : Char) : Bool :=
  let u := c.toNat
  u == 0x20 || (0x09 ≤ u && u ≤ 0x0d) ||
  (u > 127 && (u == 0x85 || u == 0xa0 || QChar.isSpace_helper u))

/-- The function `QString::trimmed`: whitespace removed from the start and
from the end. -/
def QString.trimmed (s : QString) : QString :=
  ((s.dropWhile QChar.isSpace).reverse.dropWhile QChar.isSpace).reverse

/-- The function `QString::isEmpty`. -/
def QString.isEmpty (s : QString) : Bool := s.length == 0

/-- The function `QString::size`. -/
def QString.size (s : QString) : Nat := s.length

/-- The function `QString::endsWith`. -/
def QString.endsWith (s t : QString) : Bool := t.isSuffixOf s

/-- The function `QString::resize` to a size that does not exceed the current one. -/
def QString.resize (s : QString) (n : Nat) : QString := s.take n

/-- The function `tr`: the source text, as when no translation is installed. -/
def tr (s : String) : QString := s.toList

/-- The place marker that may follow a `%`: an optional `L`, then one or two
decimal digits. Returns the marker's number and the number of characters it
occupies after the `%`. -/
def argEscape (s : QString) : Option (Nat × Nat) :=
  let l : Nat := if s.head? = some 'L' then 1 else 0
  match s.drop l with
  | [] => none
  | d1 :: r =>
    if d1.isDigit then
      match r with
      | [] => some (d1.toNat - 48, l + 1)
      | d2 :: _ =>
        if d2.isDigit then some (10 * (d1.toNat - 48) + (d2.toNat - 48), l + 2)
        else some (d1.toNat - 48, l + 1)
    else none

/-- The numbers of the place markers of a string, in order (`findArgEscapes`);
`skip` characters are still part of the marker just read. -/
def argEscapes : Nat → QString → List Nat
  | _, [] => []
  | skip + 1, _ :: rest => argEscapes skip rest
  | 0, c :: rest =>
    if c = '%' then
      match argEscape rest with
      | some (m, k) => m :: argEscapes k rest
      | none => argEscapes 0 rest
    else argEscapes 0 rest

/-- Replaces every place marker numbered `n` by `a` (`replaceArgEscapes`). -/
def replaceArgEscapes (n : Nat) (a : QString) : Nat → QString → QString
  | _, [] => []
  | skip + 1, _ :: rest => replaceArgEscapes n a skip rest
  | 0, c :: rest =>
    if c = '%' then
      match argEscape rest with
      | some (m, k) =>
        if m = n then a ++ replaceArgEscapes n a k rest
        else c :: replaceArgEscapes n a 0 rest
      | none => c :: replaceArgEscapes n a 0 rest
    else c :: replaceArgEscapes n a 0 rest

/-- The function `QString::arg(const QString &)`: the lowest-numbered place marker is
replaced by `a`; a string without a place marker is returned unchanged. -/
def QString.arg (s a : QString) : QString :=
  match (argEscapes 0 s).min? with
  | none => s
  | some n => replaceArgEscapes n a 0 s

/-- The function `QFileSystemEntry::fileName`: what follows the last `/`. -/
def fileNameOf (p : QString) : QString :=
  (p.reverse.takeWhile (fun c => c != '/')).reverse

/-- The function `QFileInfo(path).fileName()`. -/
def QFileInfo.fileName (path : QString) : QString := fileNameOf path

/-- The function `QDir(path).dirName()`: `QDir` drops one trailing `/` of a path longer
than one character before it takes the name. -/
def QDir.dirName (path : QString) : QString :=
  fileNameOf (if path.endsWith ['/'] && decide (1 < path.length) then path.dropLast else path)

/-! ## The file system read by `isNonEmptyDirectory` -/

/-- What a directory entry is: a regular file, a directory, or anything else
(device, FIFO, socket, dangling link). -/
inductive Kind
  | file
  | dir
  | other
deriving DecidableEq, Repr

/-- A node of the file system tree: its name, kind, hidden attribute, whether
the user may read it, and the entries of a directory (without `.` and `..`). -/
inductive Node where
  | mk (name : QString) (kind : Kind) (hidden readable : Bool) (children : List Node)

/-- Name of a node. -/
def Node.name : Node → QString
  | .mk n _ _ _ _ => n

/-- Kind of a node. -/
def Node.kind : Node → Kind
  | .mk _ k _ _ _ => k

/-- Hidden attribute of a node (`QFileInfo::isHidden`). -/
def Node.hidden : Node → Bool
  | .mk _ _ h _ _ => h

/-- Read permission of a node (`QFileInfo::isReadable`). -/
def Node.readable : Node → Bool
  | .mk _ _ _ r _ => r

/-- Entries of a node. -/
def Node.children : Node → List Node
  | .mk _ _ _ _ c => c

/-- A file system: the root directory and the components of the current
working directory, against which relative paths are resolved. -/
structure FileSystem where
  root : Node
  cwd : List QString

/-- Splits a path at every `/`. -/
def splitSlash : QString → List QString
  | [] => [[]]
  | c :: cs =>
    if c = '/' then [] :: splitSlash cs
    else
      match splitSlash cs with
      | [] => [[c]]
      | h :: t => (c :: h) :: t

/-- The components of a path: repeated and trailing separators add none. -/
def components (p : QString) : List QString :=
  (splitSlash p).filter (fun s => !s.isEmpty)

/-- One step of path resolution from the directory on top of `stack` (the
list of directories entered so far, innermost first). -/
def walkStep (stack : List Node) (comp : QString) : Option (List Node) :=
  match stack with
  | [] => none
  | cur :: rest =>
    if cur.kind ≠ Kind.dir then none
    else if comp = ['.'] then some stack
    else if comp = ['.', '.'] then some (if rest.isEmpty then stack else rest)
    else
      match cur.children.find? (fun c => c.name == comp) with
      | some c => some (c :: stack)
      | none => none

/-- Path resolution along a list of components. -/
def walk (stack : List Node) : List QString → Option (List Node)
  | [] => some stack
  | c :: cs =>
    match walkStep stack c with
    | some st => walk st cs
    | none => none

/-- The node a path names, if any. The empty path names nothing. -/
def FileSystem.lookup (fs : FileSystem) (path : QString) : Option Node :=
  if path.isEmpty then none
  else
    let comps := components path
    let start := if path.head? = some '/' then comps else fs.cwd ++ comps
    match walk [fs.root] start with
    | some st => st.head?
    | none => none

/-- The function `QFileInfo(path).isDir()`. -/
def QFileInfo.isDir (fs : FileSystem) (path : QString) : Bool :=
  match fs.lookup path with
  | some n => n.kind == Kind.dir
  | none => false

/-- The function `QFileInfo(path).isReadable()`. -/
def QFileInfo.isReadable (fs : FileSystem) (path : QString) : Bool :=
  match fs.lookup path with
  | some n => n.readable
  | none => false

/-! ### `QDir::Filter` and `QDirIterator`

The flag values are those of Qt 5, where `NoDotAndDotDot` is `NoDot | NoDotDot`.
-/

def QDir.Dirs : Nat := 0x001
def QDir.Files : Nat := 0x002
def QDir.Drives : Nat := 0x004
def QDir.NoSymLinks : Nat := 0x008
def QDir.AllEntries : Nat := QDir.Dirs ||| QDir.Files ||| QDir.Drives
def QDir.PermissionMask : Nat := 0x070
def QDir.Hidden : Nat := 0x100
def QDir.System : Nat := 0x200
def QDir.AllDirs : Nat := 0x400
def QDir.NoDot : Nat := 0x2000
def QDir.NoDotDot : Nat := 0x4000
def QDir.NoDotAndDotDot : Nat := QDir.NoDot ||| QDir.NoDotDot
def QDirIterator.FollowSymlinks : Nat := 0x1
def QDirIterator.Subdirectories : Nat := 0x2

/-- Whether a flag set contains one of the bits of `flag`. -/
def hasFlag (flags flag : Nat) : Bool := flags &&& flag != 0

/-- What the iterator knows of an entry it reads: the `QFileInfo` queries used
by the filter. -/
structure EntryInfo where
  fileName : QString
  isFile : Bool
  isDir : Bool
  isSymLink : Bool
  pathExists : Bool
  isHidden : Bool
deriving DecidableEq, Repr

/-- The `QFileInfo` of a node of the tree. -/
def Node.info (n : Node) : EntryInfo :=
  { fileName := n.name, isFile := n.kind == Kind.file, isDir := n.kind == Kind.dir,
    isSymLink := false, pathExists := true, isHidden := n.hidden }

/-- The entry `.` or `..` that every directory listing starts with. -/
def dotEntry (name : QString) : EntryInfo :=
  { fileName := name, isFile := false, isDir := true, isSymLink := false,
    pathExists := true, isHidden := true }

/-- The function `QDirIteratorPrivate::matchesFilters`, without name filters. -/
def matchesFilters (filters : Nat) (fi : EntryInfo) : Bool :=
  let fileName := fi.fileName
  let dotOrDotDot := fileName == ['.'] || fileName == ['.', '.']
  if hasFlag filters QDir.NoDot && fileName == ['.'] then false
  else if hasFlag filters QDir.NoDotDot && fileName == ['.', '.'] then false
  else if hasFlag filters QDir.NoSymLinks && fi.isSymLink &&
      (!hasFlag filters QDir.System || fi.pathExists) then false
  else if !hasFlag filters QDir.Hidden && !dotOrDotDot && fi.isHidden then false
  else if !hasFlag filters QDir.System &&
      (!(fi.isFile || fi.isDir || fi.isSymLink) || (!fi.pathExists && fi.isSymLink)) then false
  else if !hasFlag filters (QDir.Dirs ||| QDir.AllDirs) && fi.isDir then false
  else if !hasFlag filters QDir.Files && fi.isFile then false
  else true

/-- The test of `QDirIteratorPrivate::checkAndPushDirectory`: whether the
iterator descends into an entry. -/
def entersDirectory (filters iteratorFlags : Nat) (fi : EntryInfo) : Bool :=
  if !hasFlag iteratorFlags QDirIterator.Subdirectories then false
  else if !fi.isDir then false
  else if !hasFlag iteratorFlags QDirIterator.FollowSymlinks && fi.isSymLink then false
  else if fi.fileName == ['.'] || fi.fileName == ['.', '.'] then false
  else if !hasFlag filters QDir.AllDirs && !hasFlag filters QDir.Hidden && fi.isHidden then false
  else true

mutual
/-- The entries a `QDirIterator` started on directory `n` yields, in order. A
node that is no directory or cannot be read yields none. -/
def iterateDir (filters iteratorFlags : Nat) : Node → List EntryInfo
  | .mk _ kind _ readable children =>
    if kind == Kind.dir && readable then
      ([dotEntry ['.'], dotEntry ['.', '.']].filter (matchesFilters filters)) ++
        iterateEntries filters iteratorFlags children
    else []
/-- The entries yielded for a list of directory entries: each entry that
passes the filter, followed by the content of the entry when the iterator
descends into it. -/
def iterateEntries (filters iteratorFlags : Nat) : List Node → List EntryInfo
  | [] => []
  | c :: cs =>
    (if matchesFilters filters c.info then [c.info] else []) ++
    (if entersDirectory filters iteratorFlags c.info then iterateDir filters iteratorFlags c
     else []) ++
    iterateEntries filters iteratorFlags cs
end

/-- The function `QDirIterator(path, filters, flags).hasNext()`. -/
def QDirIterator.hasNext (fs : FileSystem) (path : QString) (filters iteratorFlags : Nat) :
    Bool :=
  match fs.lookup path with
  | some n => !(iterateDir filters iteratorFlags n).isEmpty
  | none => false

/-- The function `isNonEmptyDirectory` (lines 23-28). -/
def isNonEmptyDirectory (fs : FileSystem) (dirpath : QString) : Bool :=
  QFileInfo.isDir fs dirpath && QFileInfo.isReadable fs dirpath &&
    QDirIterator.hasNext fs dirpath (QDir.AllEntries ||| QDir.NoDotAndDotDot)
      QDirIterator.Subdirectories

/-! ## The dialog -/

/-- The fields of `ServerRepo` the dialog reads. -/
structure ServerRepo where
  id : QString
  name : QString
  encrypted : Bool
  readonly : Bool
deriving DecidableEq, Repr

/-- The fields of `RepoDownloadInfo` the dialog reads. -/
structure RepoDownloadInfo where
  repo_id : QString
  repo_version : Int
  relay_id : QString
  token : QString
  magic : QString
  relay_addr : QString
  relay_port : QString
  email : QString
  random_key : QString
  enc_version : Int
  more_info : QString
deriving DecidableEq, Repr

/-- An `ApiError`, as the text `toString` renders. -/
structure ApiError where
  toString : QString
deriving DecidableEq, Repr

/-- The arguments of `SeafileRpcClient::cloneRepo`, in the order of the call
(the error out-parameter apart). -/
structure CloneArgs where
  id : QString
  repo_version : Int
  relay_id : QString
  name : QString
  wt : QString
  token : QString
  passwd : QString
  magic : QString
  peer_addr : QString
  port : QString
  email : QString
  random_key : QString
  enc_version : Int
  more_info : QString
deriving DecidableEq, Repr

/-- A line edit: its text and whether it is enabled and visible. -/
structure QLineEdit where
  text : QString
  enabled : Bool
  visible : Bool
deriving DecidableEq, Repr

/-- A push button: whether it is enabled. -/
structure QPushButton where
  enabled : Bool
deriving DecidableEq, Repr

def QMessageBox.Yes : Nat := 0x00004000
def QMessageBox.No : Nat := 0x00010000
def QDialog.Accepted : Int := 1

/-- The members of `DownloadRepoDialog` that the slots read or write;
`result` is the code the dialog was closed with by `done`, if it was. The
type `Account` is only passed on to the request. -/
structure DownloadRepoDialog (Account : Type) where
  repo_ : ServerRepo
  account_ : Account
  sync_with_existing_ : Bool
  mDirectory : QLineEdit
  mChooseDirBtn : QPushButton
  mPassword : QLineEdit
  mOkBtn : QPushButton
  result : Option Int

/-- What a slot does outside the dialog's own fields, in program order. -/
inductive Effect (Account : Type) where
  /-- A warning box with this text was shown. -/
  | warning (text : QString)
  /-- The Yes/No question with this text was asked. -/
  | question (text : QString)
  /-- A `DownloadRepoRequest` with these arguments was created and sent. -/
  | sendRequest (account : Account) (repo_id : QString) (readonly : Bool)
  /-- Creation of the directory path was attempted (`mkpath`). -/
  | mkpath (path : QString)
  /-- The writability of the path was checked. -/
  | checkWritable (path : QString)
  /-- The sync engine was asked to clone. -/
  | cloneRepo (args : CloneArgs)
  /-- The dialog was closed with this code. -/
  | done (code : Int)
deriving DecidableEq

/-- The answers of the environment to the calls a slot makes: the file system
the probe reads, the button the user presses in the question box, the outcome
of `QDir(path).mkpath(".")`, of `QFileInfo(path).isWritable()` at the moment
it is asked, and the return code and error text of `cloneRepo`. -/
structure Env where
  fs : FileSystem
  question : QString → Nat
  mkpath : QString → Bool
  isWritable : QString → Bool
  cloneRepo : CloneArgs → Int × QString

variable {Account : Type}

/-- The function `setDirectoryText` (lines 76-84). -/
def setDirectoryText (d : DownloadRepoDialog Account) (path : QString) :
    DownloadRepoDialog Account :=
  let text := path
  let text := if text.endsWith ['/'] then text.resize (text.size - 1) else text
  { d with mDirectory := { d.mDirectory with text := text } }

/-- The constructor (lines 31-74), as far as the fields above go;
`defaultPath` is the repository's place under the configured worktree
directory, and `sync0` the value the uninitialised flag happens to hold. -/
def DownloadRepoDialog.create (account : Account) (repo : ServerRepo) (defaultPath : QString)
    (sync0 : Bool) : DownloadRepoDialog Account :=
  setDirectoryText
    { repo_ := repo, account_ := account, sync_with_existing_ := sync0,
      mDirectory := { text := [], enabled := true, visible := true },
      mChooseDirBtn := { enabled := true },
      mPassword := { text := [], enabled := true, visible := repo.encrypted },
      mOkBtn := { enabled := true },
      result := none }
    defaultPath

/-- The function `chooseDirAction` (lines 86-96); `dir` is what the directory picker
returned. -/
def chooseDirAction (d : DownloadRepoDialog Account) (dir : QString) :
    DownloadRepoDialog Account :=
  if dir.isEmpty then d else setDirectoryText d dir

/-- The function `setAllInputsEnabled` (lines 149-155). -/
def setAllInputsEnabled (d : DownloadRepoDialog Account) (enabled : Bool) :
    DownloadRepoDialog Account :=
  { d with
    mDirectory := { d.mDirectory with enabled := enabled },
    mChooseDirBtn := { d.mChooseDirBtn with enabled := enabled },
    mPassword := { d.mPassword with enabled := enabled },
    mOkBtn := { d.mOkBtn with enabled := enabled } }

/-- The password part of `validateInputs` (lines 135-146), reached when the
directory part did not return; `log` is what was done so far. The local
`password` of the source is written and never read. -/
def validatePassword (d : DownloadRepoDialog Account) (log : List (Effect Account)) :
    Bool × DownloadRepoDialog Account × List (Effect Account) :=
  if d.repo_.encrypted then
    let d := { d with mPassword := { d.mPassword with text := d.mPassword.text.trimmed } }
    if d.mPassword.text.isEmpty then
      (false, d, log ++ [Effect.warning (tr "Please enter the password")])
    else (true, d, log)
  else (true, d, log)

/-- The function `validateInputs` (lines 114-147): the returned flag, the dialog
afterwards and what was shown to the user. -/
def validateInputs (env : Env) (d : DownloadRepoDialog Account) :
    Bool × DownloadRepoDialog Account × List (Effect Account) :=
  let d := setDirectoryText d d.mDirectory.text.trimmed
  if d.mDirectory.text.isEmpty then
    (false, d, [Effect.warning (tr "Please choose the folder to sync")])
  else
    let d := { d with sync_with_existing_ := false }
    if isNonEmptyDirectory env.fs d.mDirectory.text then
      let d := { d with sync_with_existing_ := true }
      let text := (tr "Synchronize with the existing folder %1?").arg
        (QDir.dirName d.mDirectory.text)
      let ret := env.question text
      if ret &&& QMessageBox.No != 0 then (false, d, [Effect.question text])
      else validatePassword d [Effect.question text]
    else validatePassword d []

/-- The function `onOkBtnClicked` (lines 98-112). -/
def onOkBtnClicked (env : Env) (d : DownloadRepoDialog Account) :
    DownloadRepoDialog Account × List (Effect Account) :=
  let v := validateInputs env d
  if !v.1 then (v.2.1, v.2.2)
  else
    let d := setAllInputsEnabled v.2.1 false
    (d, v.2.2 ++ [Effect.sendRequest d.account_ d.repo_.id d.repo_.readonly])

/-- The function `QDialog::done`. -/
def done (d : DownloadRepoDialog Account) (code : Int) : DownloadRepoDialog Account :=
  { d with result := some code }

/-- The arguments `onDownloadRepoRequestSuccess` passes to `cloneRepo`
(lines 183-191). -/
def cloneArgs (d : DownloadRepoDialog Account) (info : RepoDownloadInfo)
    (worktree password : QString) : CloneArgs :=
  { id := info.repo_id, repo_version := info.repo_version, relay_id := info.relay_id,
    name := d.repo_.name, wt := worktree, token := info.token, passwd := password,
    magic := info.magic, peer_addr := info.relay_addr, port := info.relay_port,
    email := info.email, random_key := info.random_key, enc_version := info.enc_version,
    more_info := info.more_info }

/-- The function `onDownloadRepoRequestSuccess` (lines 157-202). -/
def onDownloadRepoRequestSuccess (env : Env) (d : DownloadRepoDialog Account)
    (info : RepoDownloadInfo) : DownloadRepoDialog Account × List (Effect Account) :=
  let worktree := d.mDirectory.text
  let password : QString := if d.repo_.encrypted then d.mPassword.text else []
  let ret : Int := 0
  let error : QString := []
  let log : List (Effect Account) := []
  -- create if not a sync with existing
  let created : Int × QString × List (Effect Account) :=
    if !d.sync_with_existing_ then
      let ret : Int := if env.mkpath worktree then 0 else -1
      (ret,
       if ret < 0 then (tr "unable to create directroy %1").arg (QDir.dirName worktree)
       else error,
       log ++ [Effect.mkpath worktree])
    else (ret, error, log)
  let ret := created.1
  let error := created.2.1
  let log := created.2.2
  -- not writable ?
  let checked : Int × QString × List (Effect Account) :=
    if ret = 0 then
      let ret : Int := if env.isWritable worktree then 0 else -1
      (ret,
       if ret < 0 then (tr "unable to write directroy %1").arg (QFileInfo.fileName worktree)
       else error,
       log ++ [Effect.checkWritable worktree])
    else (ret, error, log)
  let ret := checked.1
  let error := checked.2.1
  let log := checked.2.2
  let cloned : Int × QString × List (Effect Account) :=
    if ret = 0 then
      let args := cloneArgs d info worktree password
      ((env.cloneRepo args).1, (env.cloneRepo args).2, log ++ [Effect.cloneRepo args])
    else (ret, error, log)
  let ret := cloned.1
  let error := cloned.2.1
  let log := cloned.2.2
  if ret < 0 then
    (setAllInputsEnabled d true,
     log ++ [Effect.warning ((tr "Failed to add download task:\n %1").arg error)])
  else
    (done d QDialog.Accepted, log ++ [Effect.done QDialog.Accepted])

/-- Modelled from the spec: `SeafileApplet::warningBox`, defined outside this
file; it surfaces the message to the user in a blocking warning box. -/
def warningBox (msg : QString) : List (Effect Account) := [Effect.warning msg]

/-- The slot `onDownloadRepoRequestFailed` (lines 205-212). -/
def onDownloadRepoRequestFailed (d : DownloadRepoDialog Account) (error : ApiError) :
    DownloadRepoDialog Account × List (Effect Account) :=
  let msg := (tr "Failed to get repo download information:\n%1").arg error.toString
  (setAllInputsEnabled d true, warningBox msg)

/-- The function `setMergeWithExisting` (lines 214-216). -/
def setMergeWithExisting (d : DownloadRepoDialog Account) (localPath : QString) :
    DownloadRepoDialog Account :=
  setDirectoryText d localPath

/-! ## Observations on a slot's effects and on the dialog -/

/-- A metadata request: the arguments `DownloadRepoRequest` was built from. -/
structure Request (Account : Type) where
  account : Account
  repo_id : QString
  readonly : Bool
deriving DecidableEq

/-- The requests sent, in order. -/
def sentRequests (log : List (Effect Account)) : List (Request Account) :=
  log.filterMap fun e =>
    match e with
    | Effect.sendRequest a i r => some { account := a, repo_id := i, readonly := r }
    | _ => none

/-- The texts of the warnings shown, in order. -/
def warnings (log : List (Effect Account)) : List QString :=
  log.filterMap fun e =>
    match e with
    | Effect.warning t => some t
    | _ => none

/-- The paths whose creation was attempted, in order. -/
def mkpathCalls (log : List (Effect Account)) : List QString :=
  log.filterMap fun e =>
    match e with
    | Effect.mkpath p => some p
    | _ => none

/-- The paths whose writability was checked, in order. -/
def writableChecks (log : List (Effect Account)) : List QString :=
  log.filterMap fun e =>
    match e with
    | Effect.checkWritable p => some p
    | _ => none

/-- The arguments of the calls of `cloneRepo`, in order. -/
def cloneCalls (log : List (Effect Account)) : List CloneArgs :=
  log.filterMap fun e =>
    match e with
    | Effect.cloneRepo a => some a
    | _ => none

/-- The codes of the calls of `done`, in order. -/
def doneCalls (log : List (Effect Account)) : List Int :=
  log.filterMap fun e =>
    match e with
    | Effect.done c => some c
    | _ => none

/-- The enabled flags of the four inputs: directory field, choose-directory
button, password field, OK button. -/
def inputsEnabled (d : DownloadRepoDialog Account) : Bool × Bool × Bool × Bool :=
  (d.mDirectory.enabled, d.mChooseDirBtn.enabled, d.mPassword.enabled, d.mOkBtn.enabled)

/-- The reading of the specification of `isNonEmptyDirectory`: the path
exists, is a readable directory, and contains at least one file or
subdirectory other than `.` and `..`. -/
def isNonEmptyDirectory_spec (fs : FileSystem) (path : QString) : Bool :=
  match fs.lookup path with
  | some n =>
    n.kind == Kind.dir && n.readable &&
      n.children.any fun c =>
        (c.kind == Kind.file || c.kind == Kind.dir) && c.name != ['.'] && c.name != ['.', '.']
  | none => false

/-- A file system whose directory `/d` holds one hidden regular file. -/
def hiddenOnlyFs : FileSystem :=
  { root := Node.mk [] Kind.dir false true
      [Node.mk ['d'] Kind.dir false true
        [Node.mk ['.', 'k', 'e', 'e', 'p'] Kind.file true true []]],
    cwd := [] }

/-- The directory part of the effects of `onDownloadRepoRequestSuccess`: the
creation attempt, unless the dialog syncs with an existing folder. -/
def creationLog (d : DownloadRepoDialog Account) : List (Effect Account) :=
  if d.sync_with_existing_ then [] else [Effect.mkpath d.mDirectory.text]


/-! ## The dialog as a transition system -/

/-- The dialog together with the metadata requests that were sent and have
not yet called back. -/
structure System (Account : Type) where
  dialog : DownloadRepoDialog Account
  outstanding : List (Request Account)

/-- One step of the dialog: a click on OK while the button is enabled, the
success or the failure callback of an outstanding request, and the user's
edits of the enabled fields (the directory picker, typing into the directory
field or into the password field). -/
inductive Step : System Account → System Account → Prop
  | okClick (env : Env) (st : System Account) (h : st.dialog.mOkBtn.enabled = true) :
      Step st
        { dialog := (onOkBtnClicked env st.dialog).1,
          outstanding := st.outstanding ++ sentRequests (onOkBtnClicked env st.dialog).2 }
  | success (env : Env) (info : RepoDownloadInfo) (st : System Account)
      (before after : List (Request Account)) (req : Request Account)
      (h : st.outstanding = before ++ req :: after) :
      Step st
        { dialog := (onDownloadRepoRequestSuccess env st.dialog info).1,
          outstanding := before ++ after }
  | failed (error : ApiError) (st : System Account)
      (before after : List (Request Account)) (req : Request Account)
      (h : st.outstanding = before ++ req :: after) :
      Step st
        { dialog := (onDownloadRepoRequestFailed st.dialog error).1,
          outstanding := before ++ after }
  | chooseDir (dir : QString) (st : System Account)
      (h : st.dialog.mChooseDirBtn.enabled = true) :
      Step st { st with dialog := chooseDirAction st.dialog dir }
  | editDirectory (text : QString) (st : System Account)
      (h : st.dialog.mDirectory.enabled = true) :
      Step st
        { st with
          dialog := { st.dialog with
            mDirectory := { st.dialog.mDirectory with text := text } } }
  | editPassword (text : QString) (st : System Account)
      (h : st.dialog.mPassword.enabled = true) :
      Step st
        { st with
          dialog := { st.dialog with
            mPassword := { st.dialog.mPassword with text := text } } }

/-- The states of the dialog that can be reached from a freshly constructed
dialog with no request outstanding. -/
inductive Reachable : System Account → Prop
  | init (account : Account) (repo : ServerRepo) (defaultPath : QString) (sync0 : Bool) :
      Reachable
        { dialog := DownloadRepoDialog.create account repo defaultPath sync0, outstanding := [] }
  | step {a b : System Account} (ha : Reachable a) (hab : Step a b) : Reachable b

/-! ## Sample data -/

/-- An encrypted, writable library. -/
def sampleRepo : ServerRepo :=
  { id := "r-1".toList, name := "lib".toList, encrypted := true, readonly := false }

/-- The download information of `sampleRepo`. -/
def sampleInfo : RepoDownloadInfo :=
  { repo_id := "r-1".toList, repo_version := 1, relay_id := "relay".toList,
    token := "tok".toList, magic := "mg".toList, relay_addr := "10.0.0.1".toList,
    relay_port := "10001".toList, email := "u@example.org".toList,
    random_key := "rk".toList, enc_version := 2, more_info := "none".toList }

/-- A freshly constructed dialog for `sampleRepo`, no request outstanding. -/
def sampleStart : System Unit :=
  { dialog := DownloadRepoDialog.create () sampleRepo "/home/u/Seafile/lib".toList false,
    outstanding := [] }

/-- The state after `secret` was typed into the password field. -/
def sampleTyped : System Unit :=
  { sampleStart with
    dialog := { sampleStart.dialog with
      mPassword := { sampleStart.dialog.mPassword with text := "secret".toList } } }

/-- The dialog of `sampleTyped`. -/
def sampleDialog : DownloadRepoDialog Unit := sampleTyped.dialog

/-- The dialog of `sampleTyped` with a directory field of blanks. -/
def blankDirectoryDialog : DownloadRepoDialog Unit :=
  { sampleDialog with mDirectory := { sampleDialog.mDirectory with text := " \t ".toList } }

/-- The dialog of `sampleTyped` with a password field of blanks. -/
def blankPasswordDialog : DownloadRepoDialog Unit :=
  { sampleDialog with mPassword := { sampleDialog.mPassword with text := "  ".toList } }

/-- A file system in which `/home/u/Seafile/lib` holds a file. -/
def sampleFs : FileSystem :=
  { root := Node.mk [] Kind.dir false true
      [Node.mk "home".toList Kind.dir false true
        [Node.mk "u".toList Kind.dir false true
          [Node.mk "Seafile".toList Kind.dir false true
            [Node.mk "lib".toList Kind.dir false true
              [Node.mk "notes.txt".toList Kind.file false true []]]]]],
    cwd := ["home".toList, "u".toList] }

/-- The user declines every question; directory creation, the writability
check and the clone call succeed. -/
def envDecline : Env :=
  { fs := sampleFs, question := fun _ => QMessageBox.No, mkpath := fun _ => true,
    isWritable := fun _ => true, cloneRepo := fun _ => (0, []) }

/-- The user agrees to every question; directory creation, the writability
check and the clone call succeed. -/
def envAccept : Env :=
  { envDecline with question := fun _ => QMessageBox.Yes }

/-- As `envAccept`, with a clone call that fails with `disk full`. -/
def envCloneFails : Env :=
  { envAccept with cloneRepo := fun _ => (-1, "disk full".toList) }

/-- As `envAccept`, with a directory that cannot be created. -/
def envNoCreate : Env :=
  { envAccept with mkpath := fun _ => false }

/-- As `envAccept`, with a directory that is not writable. -/
def envReadOnly : Env :=
  { envAccept with isWritable := fun _ => false }

/-- The state after OK was clicked in `sampleTyped` and the user agreed to
sync with the existing folder. -/
def sampleSent : System Unit :=
  { dialog := (onOkBtnClicked envAccept sampleTyped.dialog).1,
    outstanding :=
      sampleTyped.outstanding ++ sentRequests (onOkBtnClicked envAccept sampleTyped.dialog).2 }

/-- The dialog of `sampleTyped` for a repository that is not encrypted, the
password field still holding `secret`. -/
def plainDialog : DownloadRepoDialog Unit :=
  { sampleDialog with repo_ := { sampleRepo with encrypted := false } }

theorem endsWith_slash_iff (p : QString) :
    p.endsWith ['/'] = true ↔ ∃ q, p = q ++ ['/'] := by
  unfold QString.endsWith
  rw [List.isSuffixOf_iff_suffix]
  constructor
  · rintro ⟨q, rfl⟩
    exact ⟨q, rfl⟩
  · rintro ⟨q, rfl⟩
    exact ⟨q, rfl⟩

theorem endsWith_slash_append (q : QString) : (q ++ ['/']).endsWith ['/'] = true :=
  (endsWith_slash_iff _).2 ⟨q, rfl⟩

theorem resize_append_slash (q : QString) :
    (q ++ ['/']).resize ((q ++ ['/']).size - 1) = q := by
  simp [QString.resize, QString.size]

/-- The text shown after `setDirectoryText`. -/
theorem setDirectoryText_text (d : DownloadRepoDialog Account) (p : QString) :
    (setDirectoryText d p).mDirectory.text =
      if p.endsWith ['/'] then p.resize (p.size - 1) else p := by
  simp [setDirectoryText]

theorem setDirectoryText_text_slash (d : DownloadRepoDialog Account) (q : QString) :
    (setDirectoryText d (q ++ ['/'])).mDirectory.text = q := by
  rw [setDirectoryText_text, endsWith_slash_append, if_pos rfl, resize_append_slash]

theorem setDirectoryText_text_other (d : DownloadRepoDialog Account) (p : QString)
    (h : p.endsWith ['/'] = false) : (setDirectoryText d p).mDirectory.text = p := by
  rw [setDirectoryText_text, h]
  simp

/-- C8: for a path ending in `/`, `setDirectoryText` shows the path without
its last character, that is with exactly one trailing separator removed; a
path that does not end in `/` is shown unchanged. -/
theorem setDirectoryText_strips_one (d : DownloadRepoDialog Account) (p : QString) :
    (p.endsWith ['/'] = true →
      (setDirectoryText d p).mDirectory.text = p.dropLast ∧
      (setDirectoryText d p).mDirectory.text ++ ['/'] = p) ∧
    (p.endsWith ['/'] = false → (setDirectoryText d p).mDirectory.text = p) := by
  refine ⟨fun h => ?_, setDirectoryText_text_other d p⟩
  obtain ⟨q, rfl⟩ := (endsWith_slash_iff p).1 h
  rw [setDirectoryText_text_slash]
  simp

/-- C8 at `/home/u/lib//` and at `/home/u/lib`. -/
theorem setDirectoryText_strips_one_witness :
    (QString.endsWith "/home/u/lib//".toList ['/'] = true ∧
      (setDirectoryText sampleDialog "/home/u/lib//".toList).mDirectory.text =
        "/home/u/lib/".toList) ∧
    (QString.endsWith "/home/u/lib".toList ['/'] = false ∧
      (setDirectoryText sampleDialog "/home/u/lib".toList).mDirectory.text =
        "/home/u/lib".toList) :=
  ⟨⟨by decide,
    ((setDirectoryText_strips_one sampleDialog "/home/u/lib//".toList).1 (by decide)).1⟩,
   ⟨by decide, (setDirectoryText_strips_one sampleDialog "/home/u/lib".toList).2 (by decide)⟩⟩

/-- C9, as stated, fails: applied to `a//`, `setDirectoryText` shows `a/`, and
applied to that text it shows `a`. -/
theorem setDirectoryText_not_idempotent :
    (setDirectoryText sampleDialog "a//".toList).mDirectory.text = "a/".toList ∧
    (setDirectoryText (setDirectoryText sampleDialog "a//".toList)
        (setDirectoryText sampleDialog "a//".toList).mDirectory.text).mDirectory.text =
      "a".toList := by
  decide

/-- C9, amended: applying `setDirectoryText` to the text it displayed leaves
the text unchanged exactly when the path does not end in two separators. -/
theorem setDirectoryText_idempotent_iff (d : DownloadRepoDialog Account) (p : QString) :
    (setDirectoryText (setDirectoryText d p) (setDirectoryText d p).mDirectory.text).mDirectory.text
        = (setDirectoryText d p).mDirectory.text ↔
      p.endsWith ['/', '/'] = false := by
  have key : ∀ (e : DownloadRepoDialog Account) (q : QString),
      (setDirectoryText e q).mDirectory.text = q ↔ q.endsWith ['/'] = false := by
    intro e q
    constructor
    · intro h
      by_contra hne
      have hq : q.endsWith ['/'] = true := by simpa using hne
      obtain ⟨r, rfl⟩ := (endsWith_slash_iff q).1 hq
      rw [setDirectoryText_text_slash] at h
      have := congrArg List.length h
      simp at this
    · exact setDirectoryText_text_other e q
  rw [key]
  cases h : p.endsWith ['/']
  · rw [setDirectoryText_text_other d p h, h]
    simp only [true_iff]
    unfold QString.endsWith at h ⊢
    by_contra hne
    have h2 : (['/', '/'] : QString).isSuffixOf p = true := by simpa using hne
    rw [List.isSuffixOf_iff_suffix] at h2
    obtain ⟨t, rfl⟩ := h2
    have : (['/'] : QString).isSuffixOf (t ++ ['/', '/']) = true := by
      rw [List.isSuffixOf_iff_suffix]
      exact ⟨t ++ ['/'], by simp⟩
    rw [this] at h
    exact Bool.noConfusion h
  · obtain ⟨q, rfl⟩ := (endsWith_slash_iff p).1 h
    rw [setDirectoryText_text_slash]
    have e2 : (q ++ ['/']).endsWith ['/', '/'] = q.endsWith ['/'] := by
      unfold QString.endsWith
      rw [Bool.eq_iff_iff, List.isSuffixOf_iff_suffix, List.isSuffixOf_iff_suffix]
      constructor
      · rintro ⟨t, ht⟩
        refine ⟨t, ?_⟩
        have : (t ++ ['/']) ++ ['/'] = q ++ ['/'] := by simpa using ht
        exact List.append_cancel_right this
      · rintro ⟨t, rfl⟩
        exact ⟨t, by simp⟩
    rw [e2]

/-! ## The directory probe -/

/-- The filter `isNonEmptyDirectory` passes to the iterator. -/
theorem probe_flags :
    hasFlag (QDir.AllEntries ||| QDir.NoDotAndDotDot) QDir.NoDot = true ∧
    hasFlag (QDir.AllEntries ||| QDir.NoDotAndDotDot) QDir.NoDotDot = true ∧
    hasFlag (QDir.AllEntries ||| QDir.NoDotAndDotDot) QDir.NoSymLinks = false ∧
    hasFlag (QDir.AllEntries ||| QDir.NoDotAndDotDot) QDir.Hidden = false ∧
    hasFlag (QDir.AllEntries ||| QDir.NoDotAndDotDot) QDir.System = false ∧
    hasFlag (QDir.AllEntries ||| QDir.NoDotAndDotDot) QDir.AllDirs = false ∧
    hasFlag (QDir.AllEntries ||| QDir.NoDotAndDotDot) (QDir.Dirs ||| QDir.AllDirs) = true ∧
    hasFlag (QDir.AllEntries ||| QDir.NoDotAndDotDot) QDir.Files = true := by
  decide

/-- Under the probe's filter an entry of the tree is listed exactly when it is
not named `.` or `..`, is not hidden, and is a regular file or a directory. -/
theorem matchesFilters_probe (n : Node) :
    matchesFilters (QDir.AllEntries ||| QDir.NoDotAndDotDot) n.info =
      (n.name != ['.'] && n.name != ['.', '.'] && !n.hidden &&
        (n.kind == Kind.file || n.kind == Kind.dir)) := by
  obtain ⟨f1, f2, f3, f4, f5, f6, f7, f8⟩ := probe_flags
  unfold matchesFilters
  simp only [f1, f2, f3, f4, f5, f7, f8, Node.info]
  by_cases h1 : n.name = ['.']
  · simp [h1]
  · by_cases h2 : n.name = ['.', '.']
    · simp [h2]
    · cases n.hidden <;> cases n.kind <;> simp [h1, h2]

/-- The iterator only descends into entries it also lists. -/
theorem entersDirectory_probe (g : Nat) (n : Node)
    (h : entersDirectory (QDir.AllEntries ||| QDir.NoDotAndDotDot) g n.info = true) :
    matchesFilters (QDir.AllEntries ||| QDir.NoDotAndDotDot) n.info = true := by
  obtain ⟨f1, f2, f3, f4, f5, f6, f7, f8⟩ := probe_flags
  rw [matchesFilters_probe]
  unfold entersDirectory at h
  simp only [f4, f6, Node.info] at h
  by_cases h1 : n.name = ['.']
  · simp [h1] at h
  · by_cases h2 : n.name = ['.', '.']
    · simp [h2] at h
    · revert h
      cases n.hidden <;> cases n.kind <;> simp [h1, h2]

theorem iterateEntries_probe (g : Nat) (cs : List Node) :
    (iterateEntries (QDir.AllEntries ||| QDir.NoDotAndDotDot) g cs).isEmpty = false ↔
      ∃ c ∈ cs, matchesFilters (QDir.AllEntries ||| QDir.NoDotAndDotDot) c.info = true := by
  induction cs with
  | nil => simp [iterateEntries]
  | cons c cs ih =>
    rw [iterateEntries]
    by_cases hm : matchesFilters (QDir.AllEntries ||| QDir.NoDotAndDotDot) c.info = true
    · simp [hm]
    · have he : entersDirectory (QDir.AllEntries ||| QDir.NoDotAndDotDot) g c.info = false := by
        by_contra hne
        exact hm (entersDirectory_probe g c (by simpa using hne))
      simp only [hm, he, List.mem_cons, exists_eq_or_imp, false_or]
      simpa using ih

theorem iterateDir_probe (g : Nat) (n : Node) :
    (iterateDir (QDir.AllEntries ||| QDir.NoDotAndDotDot) g n).isEmpty = false ↔
      n.kind = Kind.dir ∧ n.readable = true ∧
      ∃ c ∈ n.children,
        matchesFilters (QDir.AllEntries ||| QDir.NoDotAndDotDot) c.info = true := by
  obtain ⟨name, kind, hidden, readable, children⟩ := n
  have hdots : [dotEntry ['.'], dotEntry ['.', '.']].filter
      (matchesFilters (QDir.AllEntries ||| QDir.NoDotAndDotDot)) = [] := by decide
  rw [iterateDir, hdots]
  by_cases hk : (kind == Kind.dir && readable) = true
  · rw [if_pos hk, List.nil_append, iterateEntries_probe]
    simp only [Bool.and_eq_true, beq_iff_eq] at hk
    simp [Node.kind, Node.readable, Node.children, hk.1, hk.2]
  · rw [if_neg hk]
    simp only [Bool.and_eq_true, beq_iff_eq, not_and] at hk
    simp only [List.isEmpty_nil, Node.kind, Node.readable, Node.children]
    constructor
    · intro h
      exact Bool.noConfusion h
    · rintro ⟨h1, h2, _⟩
      exact (hk h1 h2).elim

/-- C10: the directory `/d` of `hiddenOnlyFs` exists, is readable and contains
a regular file, so that it is non-empty as the claim, the function's name and
the comment at line 125 have it, and `isNonEmptyDirectory` answers false: the
filter passed to the iterator lacks `QDir::Hidden`. -/
theorem isNonEmptyDirectory_hidden_only :
    isNonEmptyDirectory hiddenOnlyFs ['/', 'd'] = false ∧
    isNonEmptyDirectory_spec hiddenOnlyFs ['/', 'd'] = true := by
  decide

/-- What `isNonEmptyDirectory` computes: it answers true exactly when the path
names a readable directory that holds an entry other than `.` and `..` which
is not hidden and is a regular file or a directory. -/
theorem isNonEmptyDirectory_iff (fs : FileSystem) (path : QString) :
    isNonEmptyDirectory fs path = true ↔
      ∃ n, fs.lookup path = some n ∧ n.kind = Kind.dir ∧ n.readable = true ∧
        ∃ c ∈ n.children, c.name ≠ ['.'] ∧ c.name ≠ ['.', '.'] ∧ c.hidden = false ∧
          (c.kind = Kind.file ∨ c.kind = Kind.dir) := by
  unfold isNonEmptyDirectory QFileInfo.isDir QFileInfo.isReadable QDirIterator.hasNext
  cases hl : fs.lookup path with
  | none => simp
  | some n =>
    have hit := iterateDir_probe QDirIterator.Subdirectories n
    simp only [matchesFilters_probe] at hit
    simp only [Bool.and_eq_true, beq_iff_eq, Bool.not_eq_true', hit, Option.some.injEq,
      exists_eq_left']
    constructor
    · rintro ⟨⟨h1, h2⟩, _, _, c, hc, hm⟩
      refine ⟨h1, h2, c, hc, ?_⟩
      simpa [and_assoc] using hm
    · rintro ⟨h1, h2, c, hc, hm⟩
      refine ⟨⟨h1, h2⟩, h1, h2, c, hc, ?_⟩
      simpa [and_assoc] using hm

/-! ## Trailing separators and path lookup -/

theorem isNonEmptyDirectory_nil (fs : FileSystem) : isNonEmptyDirectory fs [] = false := by
  simp [isNonEmptyDirectory, QFileInfo.isDir, FileSystem.lookup, QString.isEmpty]

/-! ## Validation -/

theorem sentRequests_append (a b : List (Effect Account)) :
    sentRequests (a ++ b) = sentRequests a ++ sentRequests b := by
  simp [sentRequests]

theorem doneCalls_append (a b : List (Effect Account)) :
    doneCalls (a ++ b) = doneCalls a ++ doneCalls b := by
  simp [doneCalls]

theorem validatePassword_inputs (d : DownloadRepoDialog Account) (log : List (Effect Account)) :
    inputsEnabled (validatePassword d log).2.1 = inputsEnabled d ∧
    (validatePassword d log).2.1.repo_ = d.repo_ ∧
    (validatePassword d log).2.1.account_ = d.account_ ∧
    (validatePassword d log).2.1.result = d.result ∧
    sentRequests (validatePassword d log).2.2 = sentRequests log ∧
    doneCalls (validatePassword d log).2.2 = doneCalls log := by
  unfold validatePassword
  cases d.repo_.encrypted
  · simp
  · simp only [if_true]
    split <;> simp [inputsEnabled, sentRequests, doneCalls]

theorem validatePassword_empty (d : DownloadRepoDialog Account) (log : List (Effect Account))
    (he : d.repo_.encrypted = true) (hp : d.mPassword.text.trimmed = []) :
    (validatePassword d log).1 = false := by
  simp [validatePassword, he, hp, QString.isEmpty]

theorem setDirectoryText_fields (d : DownloadRepoDialog Account) (p : QString) :
    inputsEnabled (setDirectoryText d p) = inputsEnabled d ∧
    (setDirectoryText d p).repo_ = d.repo_ ∧
    (setDirectoryText d p).account_ = d.account_ ∧
    (setDirectoryText d p).result = d.result ∧
    (setDirectoryText d p).mPassword = d.mPassword := by
  simp [setDirectoryText, inputsEnabled]

/-- Validation changes none of the enabled flags, of the repository, account
and result fields, sends nothing and closes nothing. -/
theorem validateInputs_frame (env : Env) (d : DownloadRepoDialog Account) :
    inputsEnabled (validateInputs env d).2.1 = inputsEnabled d ∧
    (validateInputs env d).2.1.repo_ = d.repo_ ∧
    (validateInputs env d).2.1.account_ = d.account_ ∧
    (validateInputs env d).2.1.result = d.result ∧
    sentRequests (validateInputs env d).2.2 = [] ∧
    doneCalls (validateInputs env d).2.2 = [] := by
  obtain ⟨s1, s2, s3, s4, _⟩ := setDirectoryText_fields d d.mDirectory.text.trimmed
  unfold validateInputs
  simp only []
  split
  · exact ⟨s1, s2, s3, s4, rfl, rfl⟩
  · split
    · split
      · exact ⟨s1, s2, s3, s4, rfl, rfl⟩
      · obtain ⟨p1, p2, p3, p4, p5, p6⟩ := validatePassword_inputs
          ({ setDirectoryText d d.mDirectory.text.trimmed with
              sync_with_existing_ := true } : DownloadRepoDialog Account)
          [Effect.question ((tr "Synchronize with the existing folder %1?").arg
            (QDir.dirName (setDirectoryText d d.mDirectory.text.trimmed).mDirectory.text))]
        exact ⟨p1.trans s1, p2.trans s2, p3.trans s3, p4.trans s4, p5, p6⟩
    · obtain ⟨p1, p2, p3, p4, p5, p6⟩ := validatePassword_inputs
        ({ setDirectoryText d d.mDirectory.text.trimmed with
            sync_with_existing_ := false } : DownloadRepoDialog Account) []
      exact ⟨p1.trans s1, p2.trans s2, p3.trans s3, p4.trans s4, p5, p6⟩

/-- A click on OK whose validation fails does what validation did and nothing
more. -/
theorem onOkBtnClicked_invalid (env : Env) (d : DownloadRepoDialog Account)
    (h : (validateInputs env d).1 = false) :
    inputsEnabled (onOkBtnClicked env d).1 = inputsEnabled d ∧
    (onOkBtnClicked env d).1.result = d.result ∧
    sentRequests (onOkBtnClicked env d).2 = [] ∧
    doneCalls (onOkBtnClicked env d).2 = [] := by
  obtain ⟨v1, _, _, v4, v5, v6⟩ := validateInputs_frame env d
  simp only [onOkBtnClicked, h]
  exact ⟨v1, v4, v5, v6⟩

/-- A click on OK whose validation passes disables the four inputs and sends
one request. -/
theorem onOkBtnClicked_valid (env : Env) (d : DownloadRepoDialog Account)
    (h : (validateInputs env d).1 = true) :
    inputsEnabled (onOkBtnClicked env d).1 = (false, false, false, false) ∧
    sentRequests (onOkBtnClicked env d).2 =
      [{ account := d.account_, repo_id := d.repo_.id, readonly := d.repo_.readonly }] ∧
    doneCalls (onOkBtnClicked env d).2 = [] := by
  obtain ⟨_, v2, v3, _, v5, v6⟩ := validateInputs_frame env d
  simp only [onOkBtnClicked, h, Bool.not_true, Bool.false_eq_true, if_false]
  refine ⟨rfl, ?_, ?_⟩
  · rw [sentRequests_append, v5]
    simp [sentRequests, setAllInputsEnabled, v2, v3]
  · rw [doneCalls_append, v6]
    rfl

theorem validateInputs_empty_directory (env : Env) (d : DownloadRepoDialog Account)
    (h : d.mDirectory.text.trimmed = []) : (validateInputs env d).1 = false := by
  have ht : (setDirectoryText d d.mDirectory.text.trimmed).mDirectory.text = [] := by
    rw [h, setDirectoryText_text]
    decide
  simp [validateInputs, ht, QString.isEmpty]

theorem validateInputs_empty_password (env : Env) (d : DownloadRepoDialog Account)
    (he : d.repo_.encrypted = true) (hp : d.mPassword.text.trimmed = []) :
    (validateInputs env d).1 = false := by
  obtain ⟨_, s2, _, _, s5⟩ := setDirectoryText_fields d d.mDirectory.text.trimmed
  unfold validateInputs
  simp only []
  split
  · rfl
  · split
    · split
      · rfl
      · exact validatePassword_empty _ _ (by simpa [s2] using he) (by simpa [s5] using hp)
    · exact validatePassword_empty _ _ (by simpa [s2] using he) (by simpa [s5] using hp)

/-- C1: when the directory field is empty after trimming, or the repository is
encrypted and the password field is empty after trimming, a click on OK sends
no metadata request and leaves the enabled flags of the four inputs as they
were, for every file system and every answer of the user. -/
theorem onOkBtnClicked_rejects_empty (env : Env) (d : DownloadRepoDialog Account)
    (h : d.mDirectory.text.trimmed = [] ∨
      (d.repo_.encrypted = true ∧ d.mPassword.text.trimmed = [])) :
    sentRequests (onOkBtnClicked env d).2 = [] ∧
    inputsEnabled (onOkBtnClicked env d).1 = inputsEnabled d := by
  have hv : (validateInputs env d).1 = false := by
    rcases h with h | ⟨he, hp⟩
    · exact validateInputs_empty_directory env d h
    · exact validateInputs_empty_password env d he hp
  obtain ⟨o1, _, o3, _⟩ := onOkBtnClicked_invalid env d hv
  exact ⟨o3, o1⟩

theorem arg_failed_task (a : QString) :
    (tr "Failed to add download task:\n %1").arg a =
      "Failed to add download task:\n ".toList ++ a := by
  have h : (tr "Failed to add download task:\n %1").arg a =
      "Failed to add download task:\n ".toList ++ (a ++ []) := rfl
  rw [h, List.append_nil]

theorem arg_failed_info (a : QString) :
    (tr "Failed to get repo download information:\n%1").arg a =
      "Failed to get repo download information:\n".toList ++ a := by
  have h : (tr "Failed to get repo download information:\n%1").arg a =
      "Failed to get repo download information:\n".toList ++ (a ++ []) := rfl
  rw [h, List.append_nil]

/-- The four ways `onDownloadRepoRequestSuccess` runs. -/
theorem onDownloadRepoRequestSuccess_cases (env : Env) (d : DownloadRepoDialog Account)
    (info : RepoDownloadInfo) :
    onDownloadRepoRequestSuccess env d info =
      if d.sync_with_existing_ = false ∧ env.mkpath d.mDirectory.text = false then
        (setAllInputsEnabled d true,
          [Effect.mkpath d.mDirectory.text,
           Effect.warning ((tr "Failed to add download task:\n %1").arg
             ((tr "unable to create directroy %1").arg (QDir.dirName d.mDirectory.text)))])
      else if env.isWritable d.mDirectory.text = false then
        (setAllInputsEnabled d true,
          creationLog d ++
          [Effect.checkWritable d.mDirectory.text,
           Effect.warning ((tr "Failed to add download task:\n %1").arg
             ((tr "unable to write directroy %1").arg (QFileInfo.fileName d.mDirectory.text)))])
      else if (env.cloneRepo (cloneArgs d info d.mDirectory.text
          (if d.repo_.encrypted then d.mPassword.text else []))).1 < 0 then
        (setAllInputsEnabled d true,
          creationLog d ++
          [Effect.checkWritable d.mDirectory.text,
           Effect.cloneRepo (cloneArgs d info d.mDirectory.text
             (if d.repo_.encrypted then d.mPassword.text else [])),
           Effect.warning ((tr "Failed to add download task:\n %1").arg
             (env.cloneRepo (cloneArgs d info d.mDirectory.text
               (if d.repo_.encrypted then d.mPassword.text else []))).2)])
      else
        (done d QDialog.Accepted,
          creationLog d ++
          [Effect.checkWritable d.mDirectory.text,
           Effect.cloneRepo (cloneArgs d info d.mDirectory.text
             (if d.repo_.encrypted then d.mPassword.text else [])),
           Effect.done QDialog.Accepted]) := by
  unfold onDownloadRepoRequestSuccess creationLog
  cases hs : d.sync_with_existing_ <;> cases hm : env.mkpath d.mDirectory.text <;>
    cases hw : env.isWritable d.mDirectory.text <;> simp [hs, hm, hw]

theorem onDownloadRepoRequestFailed_eq (d : DownloadRepoDialog Account) (error : ApiError) :
    onDownloadRepoRequestFailed d error =
      (setAllInputsEnabled d true,
        [Effect.warning
          ("Failed to get repo download information:\n".toList ++ error.toString)]) := by
  simp [onDownloadRepoRequestFailed, warningBox, arg_failed_info]

/-- C1 at a directory field of blanks and at a password field of blanks. -/
theorem onOkBtnClicked_rejects_empty_witness :
    (sentRequests (onOkBtnClicked envAccept blankDirectoryDialog).2 = [] ∧
      inputsEnabled (onOkBtnClicked envAccept blankDirectoryDialog).1 =
        inputsEnabled blankDirectoryDialog) ∧
    (sentRequests (onOkBtnClicked envAccept blankPasswordDialog).2 = [] ∧
      inputsEnabled (onOkBtnClicked envAccept blankPasswordDialog).1 =
        inputsEnabled blankPasswordDialog) :=
  ⟨onOkBtnClicked_rejects_empty envAccept blankDirectoryDialog (Or.inl (by decide)),
   onOkBtnClicked_rejects_empty envAccept blankPasswordDialog
     (Or.inr ⟨by decide, by decide⟩)⟩

/-- C4: in `onDownloadRepoRequestSuccess` the creation of the directory is
attempted exactly when `sync_with_existing_` is false; the writability check
is made exactly when the creation was skipped or succeeded; and `cloneRepo`
is called, once, exactly when moreover the directory is writable, and not at
all otherwise. -/
theorem onDownloadRepoRequestSuccess_calls (env : Env) (d : DownloadRepoDialog Account)
    (info : RepoDownloadInfo) :
    mkpathCalls (onDownloadRepoRequestSuccess env d info).2 =
      (if d.sync_with_existing_ = false then [d.mDirectory.text] else []) ∧
    writableChecks (onDownloadRepoRequestSuccess env d info).2 =
      (if d.sync_with_existing_ = true ∨ env.mkpath d.mDirectory.text = true then
        [d.mDirectory.text] else []) ∧
    cloneCalls (onDownloadRepoRequestSuccess env d info).2 =
      (if (d.sync_with_existing_ = true ∨ env.mkpath d.mDirectory.text = true) ∧
          env.isWritable d.mDirectory.text = true then
        [cloneArgs d info d.mDirectory.text
          (if d.repo_.encrypted then d.mPassword.text else [])]
       else []) := by
  rw [onDownloadRepoRequestSuccess_cases]
  unfold creationLog
  cases hs : d.sync_with_existing_ <;> cases hm : env.mkpath d.mDirectory.text <;>
    cases hw : env.isWritable d.mDirectory.text <;>
    simp only [mkpathCalls, writableChecks, cloneCalls] <;>
    split_ifs <;> simp_all

/-- C5: `onDownloadRepoRequestSuccess` calls `done(Accepted)` exactly when the
directory was prepared (sync with an existing folder, or creation succeeded,
and the directory is writable) and `cloneRepo` did not return a negative
code; then the dialog's result is `Accepted` and no warning is shown,
otherwise `done` is not called and the result is unchanged. In particular
this is so for an encrypted repository when creation, writability check and
clone call succeed. -/
theorem onDownloadRepoRequestSuccess_accepted (env : Env) (d : DownloadRepoDialog Account)
    (info : RepoDownloadInfo) :
    (doneCalls (onDownloadRepoRequestSuccess env d info).2 = [QDialog.Accepted] ↔
      (d.sync_with_existing_ = true ∨ env.mkpath d.mDirectory.text = true) ∧
      env.isWritable d.mDirectory.text = true ∧
      0 ≤ (env.cloneRepo (cloneArgs d info d.mDirectory.text
        (if d.repo_.encrypted then d.mPassword.text else []))).1) ∧
    (doneCalls (onDownloadRepoRequestSuccess env d info).2 = [QDialog.Accepted] →
      (onDownloadRepoRequestSuccess env d info).1.result = some QDialog.Accepted ∧
      warnings (onDownloadRepoRequestSuccess env d info).2 = []) ∧
    (doneCalls (onDownloadRepoRequestSuccess env d info).2 ≠ [QDialog.Accepted] →
      doneCalls (onDownloadRepoRequestSuccess env d info).2 = [] ∧
      (onDownloadRepoRequestSuccess env d info).1.result = d.result) ∧
    (d.repo_.encrypted = true → d.sync_with_existing_ = false →
      env.mkpath d.mDirectory.text = true → env.isWritable d.mDirectory.text = true →
      0 ≤ (env.cloneRepo (cloneArgs d info d.mDirectory.text d.mPassword.text)).1 →
      (onDownloadRepoRequestSuccess env d info).1.result = some QDialog.Accepted ∧
      doneCalls (onDownloadRepoRequestSuccess env d info).2 = [QDialog.Accepted] ∧
      warnings (onDownloadRepoRequestSuccess env d info).2 = []) := by
  rw [onDownloadRepoRequestSuccess_cases]
  unfold creationLog
  cases he : d.repo_.encrypted <;>
    cases hs : d.sync_with_existing_ <;> cases hm : env.mkpath d.mDirectory.text <;>
    cases hw : env.isWritable d.mDirectory.text <;>
    simp only [doneCalls, warnings] <;>
    split_ifs <;> simp_all [done, setAllInputsEnabled, QDialog.Accepted]

/-- C5 at the sample dialog with creation, writability check and clone call
succeeding. -/
theorem onDownloadRepoRequestSuccess_accepted_witness :
    (onDownloadRepoRequestSuccess envAccept sampleDialog sampleInfo).1.result =
      some QDialog.Accepted ∧
    doneCalls (onDownloadRepoRequestSuccess envAccept sampleDialog sampleInfo).2 =
      [QDialog.Accepted] ∧
    warnings (onDownloadRepoRequestSuccess envAccept sampleDialog sampleInfo).2 = [] :=
  (onDownloadRepoRequestSuccess_accepted envAccept sampleDialog sampleInfo).2.2.2
    (by decide) (by decide) (by decide) (by decide) (by decide)

theorem contains_of_append (pre m : QString) : m <:+: pre ++ m :=
  ⟨pre, [], List.append_nil _⟩

/-- C6: every failure after submission shows a warning, enables the four
inputs and does not close the dialog. When the metadata request fails the
warning's text contains the error's string; when the directory cannot be
created or is not writable the warning's text contains the message naming
the directory and `cloneRepo` is not called; and when `cloneRepo` returns a
negative code the warning's text contains the error text it returned. -/
theorem failure_reenables_inputs (env : Env) (d : DownloadRepoDialog Account)
    (info : RepoDownloadInfo) (error : ApiError) :
    ((∃ t, (onDownloadRepoRequestFailed d error).2 = [Effect.warning t] ∧
        error.toString <:+: t) ∧
      inputsEnabled (onDownloadRepoRequestFailed d error).1 = (true, true, true, true) ∧
      (onDownloadRepoRequestFailed d error).1.result = d.result) ∧
    (d.sync_with_existing_ = false → env.mkpath d.mDirectory.text = false →
      (∃ t, warnings (onDownloadRepoRequestSuccess env d info).2 = [t] ∧
        (tr "unable to create directroy %1").arg (QDir.dirName d.mDirectory.text) <:+: t) ∧
      cloneCalls (onDownloadRepoRequestSuccess env d info).2 = [] ∧
      doneCalls (onDownloadRepoRequestSuccess env d info).2 = [] ∧
      inputsEnabled (onDownloadRepoRequestSuccess env d info).1 = (true, true, true, true) ∧
      (onDownloadRepoRequestSuccess env d info).1.result = d.result) ∧
    ((d.sync_with_existing_ = true ∨ env.mkpath d.mDirectory.text = true) →
      env.isWritable d.mDirectory.text = false →
      (∃ t, warnings (onDownloadRepoRequestSuccess env d info).2 = [t] ∧
        (tr "unable to write directroy %1").arg (QFileInfo.fileName d.mDirectory.text)
          <:+: t) ∧
      cloneCalls (onDownloadRepoRequestSuccess env d info).2 = [] ∧
      doneCalls (onDownloadRepoRequestSuccess env d info).2 = [] ∧
      inputsEnabled (onDownloadRepoRequestSuccess env d info).1 = (true, true, true, true) ∧
      (onDownloadRepoRequestSuccess env d info).1.result = d.result) ∧
    ((d.sync_with_existing_ = true ∨ env.mkpath d.mDirectory.text = true) →
      env.isWritable d.mDirectory.text = true →
      (env.cloneRepo (cloneArgs d info d.mDirectory.text
          (if d.repo_.encrypted then d.mPassword.text else []))).1 < 0 →
      (∃ t, warnings (onDownloadRepoRequestSuccess env d info).2 = [t] ∧
        (env.cloneRepo (cloneArgs d info d.mDirectory.text
          (if d.repo_.encrypted then d.mPassword.text else []))).2 <:+: t) ∧
      doneCalls (onDownloadRepoRequestSuccess env d info).2 = [] ∧
      inputsEnabled (onDownloadRepoRequestSuccess env d info).1 = (true, true, true, true) ∧
      (onDownloadRepoRequestSuccess env d info).1.result = d.result) := by
  refine ⟨?_, ?_, ?_, ?_⟩
  · rw [onDownloadRepoRequestFailed_eq]
    exact ⟨⟨_, rfl, contains_of_append _ _⟩, rfl, rfl⟩
  · intro hs hm
    have hlog : warnings (onDownloadRepoRequestSuccess env d info).2 =
          [(tr "Failed to add download task:\n %1").arg
            ((tr "unable to create directroy %1").arg (QDir.dirName d.mDirectory.text))] ∧
        cloneCalls (onDownloadRepoRequestSuccess env d info).2 = [] ∧
        doneCalls (onDownloadRepoRequestSuccess env d info).2 = [] ∧
        inputsEnabled (onDownloadRepoRequestSuccess env d info).1 = (true, true, true, true) ∧
        (onDownloadRepoRequestSuccess env d info).1.result = d.result := by
      rw [onDownloadRepoRequestSuccess_cases]
      unfold creationLog
      simp only [warnings, cloneCalls, doneCalls]
      split_ifs <;> simp_all [setAllInputsEnabled, inputsEnabled]
    refine ⟨⟨_, hlog.1, ?_⟩, hlog.2⟩
    rw [arg_failed_task]
    exact contains_of_append _ _
  · intro hprep hw
    have hlog : warnings (onDownloadRepoRequestSuccess env d info).2 =
          [(tr "Failed to add download task:\n %1").arg
            ((tr "unable to write directroy %1").arg (QFileInfo.fileName d.mDirectory.text))] ∧
        cloneCalls (onDownloadRepoRequestSuccess env d info).2 = [] ∧
        doneCalls (onDownloadRepoRequestSuccess env d info).2 = [] ∧
        inputsEnabled (onDownloadRepoRequestSuccess env d info).1 = (true, true, true, true) ∧
        (onDownloadRepoRequestSuccess env d info).1.result = d.result := by
      rw [onDownloadRepoRequestSuccess_cases]
      unfold creationLog
      simp only [warnings, cloneCalls, doneCalls]
      split_ifs <;> simp_all [setAllInputsEnabled, inputsEnabled]
    refine ⟨⟨_, hlog.1, ?_⟩, hlog.2⟩
    rw [arg_failed_task]
    exact contains_of_append _ _
  · intro hprep hw hneg
    have hlog : warnings (onDownloadRepoRequestSuccess env d info).2 =
          [(tr "Failed to add download task:\n %1").arg
            (env.cloneRepo (cloneArgs d info d.mDirectory.text
              (if d.repo_.encrypted then d.mPassword.text else []))).2] ∧
        doneCalls (onDownloadRepoRequestSuccess env d info).2 = [] ∧
        inputsEnabled (onDownloadRepoRequestSuccess env d info).1 = (true, true, true, true) ∧
        (onDownloadRepoRequestSuccess env d info).1.result = d.result := by
      rw [onDownloadRepoRequestSuccess_cases]
      unfold creationLog
      simp only [warnings, doneCalls]
      split_ifs <;> simp_all [setAllInputsEnabled, inputsEnabled]
    refine ⟨⟨_, hlog.1, ?_⟩, hlog.2⟩
    rw [arg_failed_task]
    exact contains_of_append _ _

/-- C6 at a failing metadata request, a directory that cannot be created, a
directory that is not writable, and a clone call failing with `disk full`. -/
theorem failure_reenables_inputs_witness :
    ((∃ t, (onDownloadRepoRequestFailed sampleDialog ⟨"timeout".toList⟩).2 =
          [Effect.warning t] ∧ "timeout".toList <:+: t) ∧
      inputsEnabled (onDownloadRepoRequestFailed sampleDialog ⟨"timeout".toList⟩).1 =
        (true, true, true, true) ∧
      (onDownloadRepoRequestFailed sampleDialog ⟨"timeout".toList⟩).1.result =
        sampleDialog.result) ∧
    ((∃ t, warnings (onDownloadRepoRequestSuccess envNoCreate sampleDialog sampleInfo).2 = [t] ∧
        (tr "unable to create directroy %1").arg (QDir.dirName sampleDialog.mDirectory.text)
          <:+: t) ∧
      cloneCalls (onDownloadRepoRequestSuccess envNoCreate sampleDialog sampleInfo).2 = [] ∧
      doneCalls (onDownloadRepoRequestSuccess envNoCreate sampleDialog sampleInfo).2 = [] ∧
      inputsEnabled (onDownloadRepoRequestSuccess envNoCreate sampleDialog sampleInfo).1 =
        (true, true, true, true) ∧
      (onDownloadRepoRequestSuccess envNoCreate sampleDialog sampleInfo).1.result =
        sampleDialog.result) ∧
    ((∃ t, warnings (onDownloadRepoRequestSuccess envReadOnly sampleDialog sampleInfo).2 = [t] ∧
        (tr "unable to write directroy %1").arg (QFileInfo.fileName sampleDialog.mDirectory.text)
          <:+: t) ∧
      cloneCalls (onDownloadRepoRequestSuccess envReadOnly sampleDialog sampleInfo).2 = [] ∧
      doneCalls (onDownloadRepoRequestSuccess envReadOnly sampleDialog sampleInfo).2 = [] ∧
      inputsEnabled (onDownloadRepoRequestSuccess envReadOnly sampleDialog sampleInfo).1 =
        (true, true, true, true) ∧
      (onDownloadRepoRequestSuccess envReadOnly sampleDialog sampleInfo).1.result =
        sampleDialog.result) ∧
    ((∃ t, warnings (onDownloadRepoRequestSuccess envCloneFails sampleDialog sampleInfo).2 =
          [t] ∧ "disk full".toList <:+: t) ∧
      doneCalls (onDownloadRepoRequestSuccess envCloneFails sampleDialog sampleInfo).2 = [] ∧
      inputsEnabled (onDownloadRepoRequestSuccess envCloneFails sampleDialog sampleInfo).1 =
        (true, true, true, true) ∧
      (onDownloadRepoRequestSuccess envCloneFails sampleDialog sampleInfo).1.result =
        sampleDialog.result) :=
  ⟨(failure_reenables_inputs envAccept sampleDialog sampleInfo ⟨"timeout".toList⟩).1,
   (failure_reenables_inputs envNoCreate sampleDialog sampleInfo ⟨[]⟩).2.1
     (by decide) (by decide),
   (failure_reenables_inputs envReadOnly sampleDialog sampleInfo ⟨[]⟩).2.2.1
     (Or.inr (by decide)) (by decide),
   (failure_reenables_inputs envCloneFails sampleDialog sampleInfo ⟨[]⟩).2.2.2
     (Or.inr (by decide)) (by decide) (by decide)⟩

/-- C7: whenever `onDownloadRepoRequestSuccess` calls `cloneRepo`, the password
argument is empty for a repository that is not encrypted and the text of the
password field for an encrypted one, the local path is the text of the
directory field, the name is the repository's name, and every other argument
is the corresponding field of the download information. -/
theorem cloneRepo_arguments (env : Env) (d : DownloadRepoDialog Account)
    (info : RepoDownloadInfo) (args : CloneArgs)
    (h : Effect.cloneRepo args ∈ (onDownloadRepoRequestSuccess env d info).2) :
    args.passwd = (if d.repo_.encrypted then d.mPassword.text else []) ∧
    args.wt = d.mDirectory.text ∧
    args.name = d.repo_.name ∧
    args.id = info.repo_id ∧
    args.repo_version = info.repo_version ∧
    args.relay_id = info.relay_id ∧
    args.token = info.token ∧
    args.magic = info.magic ∧
    args.peer_addr = info.relay_addr ∧
    args.port = info.relay_port ∧
    args.email = info.email ∧
    args.random_key = info.random_key ∧
    args.enc_version = info.enc_version ∧
    args.more_info = info.more_info := by
  have hargs : args = cloneArgs d info d.mDirectory.text
      (if d.repo_.encrypted then d.mPassword.text else []) := by
    rw [onDownloadRepoRequestSuccess_cases] at h
    unfold creationLog at h
    split_ifs at h <;> simp_all
  subst hargs
  simp [cloneArgs]

/-- C7 at the sample dialog and at the same dialog for a repository that is
not encrypted: the typed password `secret` is passed in the first case and
the empty string in the second. -/
theorem cloneRepo_arguments_witness :
    (cloneArgs sampleDialog sampleInfo sampleDialog.mDirectory.text "secret".toList).passwd =
      "secret".toList ∧
    (cloneArgs plainDialog sampleInfo plainDialog.mDirectory.text []).passwd = [] ∧
    plainDialog.mPassword.text = "secret".toList :=
  ⟨(cloneRepo_arguments envAccept sampleDialog sampleInfo
      (cloneArgs sampleDialog sampleInfo sampleDialog.mDirectory.text "secret".toList)
      (by decide)).1,
   (cloneRepo_arguments envAccept plainDialog sampleInfo
      (cloneArgs plainDialog sampleInfo plainDialog.mDirectory.text [])
      (by decide)).1,
   by decide⟩

/-! ## The transition system -/

theorem chooseDirAction_inputs (d : DownloadRepoDialog Account) (dir : QString) :
    inputsEnabled (chooseDirAction d dir) = inputsEnabled d := by
  unfold chooseDirAction
  split
  · rfl
  · exact (setDirectoryText_fields d dir).1

theorem outstanding_single {α : Type} (l before after : List α) (req : α)
    (hlen : l.length ≤ 1) (h : l = before ++ req :: after) : before ++ after = [] := by
  subst h
  cases before with
  | nil =>
    cases after with
    | nil => rfl
    | cons a t => simp at hlen
  | cons b t =>
    simp only [List.cons_append, List.length_cons, List.length_append] at hlen
    omega

/-- The invariant of the transition system. -/
theorem reachable_invariant (st : System Account) (h : Reachable st) :
    st.outstanding.length ≤ 1 ∧
    (st.outstanding ≠ [] → inputsEnabled st.dialog = (false, false, false, false)) := by
  induction h with
  | init account repo defaultPath sync0 => simp
  | @step a b ha hab ih =>
    obtain ⟨ih1, ih2⟩ := ih
    cases hab with
    | okClick env _ hen =>
      have hnone : a.outstanding = [] := by
        by_contra hne
        have hdis := ih2 hne
        simp only [inputsEnabled, Prod.mk.injEq] at hdis
        rw [hdis.2.2.2] at hen
        exact Bool.noConfusion hen
      cases hv : (validateInputs env a.dialog).1
      · obtain ⟨_, _, o3, _⟩ := onOkBtnClicked_invalid env a.dialog hv
        simp [hnone, o3]
      · obtain ⟨o1, o2, _⟩ := onOkBtnClicked_valid env a.dialog hv
        simp [hnone, o1, o2]
    | success env info _ before after req hout =>
      have hnil := outstanding_single _ before after req ih1 hout
      simp [hnil]
    | failed error _ before after req hout =>
      have hnil := outstanding_single _ before after req ih1 hout
      simp [hnil]
    | chooseDir dir _ hen =>
      exact ⟨ih1, fun hne => (chooseDirAction_inputs a.dialog dir).trans (ih2 hne)⟩
    | editDirectory text _ hen => exact ⟨ih1, ih2⟩
    | editPassword text _ hen => exact ⟨ih1, ih2⟩

/-- C3: in every state reachable by clicks on OK (while the button is
enabled), success and failure callbacks of outstanding requests and the
user's edits, at most one metadata request is outstanding, and while one is
outstanding all four inputs are disabled; and a click on OK that passes
validation disables all four inputs and sends exactly one request, built from
the account, the repository id and the repository's read-only flag. -/
theorem reachable_single_request (st : System Account) (h : Reachable st) :
    st.outstanding.length ≤ 1 ∧
    (st.outstanding ≠ [] → inputsEnabled st.dialog = (false, false, false, false)) ∧
    ∀ (env : Env) (d : DownloadRepoDialog Account), (validateInputs env d).1 = true →
      inputsEnabled (onOkBtnClicked env d).1 = (false, false, false, false) ∧
      sentRequests (onOkBtnClicked env d).2 =
        [{ account := d.account_, repo_id := d.repo_.id, readonly := d.repo_.readonly }] := by
  exact ⟨(reachable_invariant st h).1, (reachable_invariant st h).2,
    fun env d hv => ⟨(onOkBtnClicked_valid env d hv).1, (onOkBtnClicked_valid env d hv).2.1⟩⟩

/-- The sample state after the click is reachable. -/
theorem sampleSent_reachable : Reachable sampleSent :=
  Reachable.step
    (Reachable.step
      (Reachable.init () sampleRepo "/home/u/Seafile/lib".toList false)
      (Step.editPassword "secret".toList sampleStart rfl))
    (Step.okClick envAccept sampleTyped rfl)

/-- C3 at the sample state after the click: one request is outstanding, the
inputs are disabled, and the click sent the request for the sample
repository. -/
theorem reachable_single_request_witness :
    sampleSent.outstanding.length ≤ 1 ∧
    (sampleSent.outstanding ≠ [] ∧
      inputsEnabled sampleSent.dialog = (false, false, false, false)) ∧
    ((validateInputs envAccept sampleDialog).1 = true ∧
      inputsEnabled (onOkBtnClicked envAccept sampleDialog).1 = (false, false, false, false) ∧
      sentRequests (onOkBtnClicked envAccept sampleDialog).2 =
        [{ account := sampleDialog.account_, repo_id := sampleDialog.repo_.id,
           readonly := sampleDialog.repo_.readonly }]) :=
  ⟨(reachable_single_request sampleSent sampleSent_reachable).1,
   ⟨by decide, (reachable_single_request sampleSent sampleSent_reachable).2.1 (by decide)⟩,
   ⟨by decide,
    (reachable_single_request sampleSent sampleSent_reachable).2.2 envAccept sampleDialog
      (by decide)⟩⟩

end DownloadRepo
